import Mathlib

set_option maxRecDepth 8000

/-!
Verification development for the binary measurement-file plotter
(decode / derive / resample pipeline).

Shallow embedding conventions:
* JavaScript numbers are modelled as exact rationals; the source computes
  with IEEE doubles and 32-bit floats, so equalities below are statements
  about the real-number formulas the code evaluates.  Division by zero in
  the rational model yields 0 where JavaScript would yield Infinity or NaN;
  theorems that depend on a quotient always carry a nonzero hypothesis, and
  the one place where the JavaScript code divides by zero is only used to
  show that no error is raised there.
* Byte buffers are lists of naturals (each entry a byte value); a Node
  buffer read that would throw a RangeError is an Except.error carrying the
  offending offset.
* JavaScript 32-bit bitwise arithmetic (used by the 7-bit varint length
  decoder) is modelled exactly: operands are converted to signed 32-bit
  integers before the operation.
-/

instance {ε α : Type} [DecidableEq ε] [DecidableEq α] : DecidableEq (Except ε α) := fun x y =>
  match x, y with
  | .error a, .error b => if h : a = b then .isTrue (by rw [h]) else .isFalse (by simp [h])
  | .ok a, .ok b => if h : a = b then .isTrue (by rw [h]) else .isFalse (by simp [h])
  | .error _, .ok _ => .isFalse (by simp)
  | .ok _, .error _ => .isFalse (by simp)

/-- JavaScript array read arr[i] for an index known to be in bounds at every
use site exercised by the theorems; out of bounds it defaults to 0 where
JavaScript would give undefined. -/
def getQ (l : List ℚ) (i : ℕ) : ℚ := l.getD i 0

/-- Signed 32-bit normalization: the value congruent mod 2^32 lying in
[-2^31, 2^31), as produced by JavaScript ToInt32. -/
def jsToInt32 (z : ℤ) : ℤ := (z + 2 ^ 31).emod (2 ^ 32) - 2 ^ 31

/-- JavaScript left shift: shift count is taken mod 32 and the result is
truncated to a signed 32-bit integer. -/
def jsShl (a : ℤ) (b : ℕ) : ℤ := jsToInt32 (a * 2 ^ (b % 32))

/-- JavaScript bitwise or: both operands converted to unsigned 32-bit, or-ed,
and the result read back as a signed 32-bit integer. -/
def jsOr (a b : ℤ) : ℤ :=
  jsToInt32 (((a.emod (2 ^ 32)).toNat ||| (b.emod (2 ^ 32)).toNat : ℕ) : ℤ)

/-- The while-loop of readCSharpString that decodes the 7-bit length prefix:
read bytes one at a time, accumulate the low 7 bits of each byte at the
current shift, stop once a byte has its high bit clear.  Reading past the
end of the buffer is the RangeError thrown by buffer.readUInt8, reported
with the offending offset. -/
def readStringLen (buffer : List ℕ) (off : ℕ) (length : ℤ) (shift : ℕ) :
    Except ℕ (ℤ × ℕ) :=
  if h : off < buffer.length then
    if buffer.get ⟨off, h⟩ &&& 0x80 = 0 then
      .ok (jsOr length (jsShl (((buffer.get ⟨off, h⟩ &&& 0x7F : ℕ) : ℤ)) shift), off + 1)
    else
      readStringLen buffer (off + 1)
        (jsOr length (jsShl (((buffer.get ⟨off, h⟩ &&& 0x7F : ℕ) : ℤ)) shift)) (shift + 7)
  else .error off
termination_by buffer.length - off
decreasing_by omega

/-- Node Buffer.subarray index resolution: a negative index counts from the
end of the buffer, and both endpoints are clamped into [0, length]. -/
def subarrayIdx (len : ℕ) (i : ℤ) : ℕ :=
  if i < 0 then (max ((len : ℤ) + i) 0).toNat else (min i (len : ℤ)).toNat

/-- BinaryReader.readCSharpString: decode the 7-bit encoded length, return
the empty string for length 0, otherwise take the next length bytes via
buffer.subarray (which clamps, never throws) and advance the offset past
them.  The decoded string is kept as its UTF-8 byte list. -/
def readCSharpString (buffer : List ℕ) (offset : ℕ) : Except ℕ (List ℕ × ℤ) :=
  match readStringLen buffer offset 0 0 with
  | .error e => .error e
  | .ok (length, currentOffset) =>
    if length = 0 then .ok ([], (currentOffset : ℤ))
    else
      let s := subarrayIdx buffer.length (currentOffset : ℤ)
      let e := subarrayIdx buffer.length ((currentOffset : ℤ) + length)
      .ok ((buffer.drop s).take (e - s), (currentOffset : ℤ) + length)

/-- Ticks from the .NET epoch to 1970-01-01, as in the source. -/
def dotNetEpochTicks : ℤ := 621355968000000000

/-- BinaryReader.convertBinaryTimestampToUnixMs.  The input is the BigInt
read from the file; BigInt and-masking with the 62-bit mask is emod 2^62
(low bits of the two complement form), so the masked value is never
negative and the inner negative-ticks branch of the source is preserved
but dead.  BigInt division by 10000 truncates toward zero, which on the
nonnegative operands reached here agrees with Int division.  Date.now()
is passed in as nowMs. -/
def convertBinaryTimestampToUnixMs (startTimeBinary : ℤ) (nowMs : ℤ) : ℤ :=
  let ticks :=
    if 0 ≤ startTimeBinary then
      startTimeBinary.emod (2 ^ 62)
    else
      let t := startTimeBinary.emod (2 ^ 62)
      if t < 0 then
        (if startTimeBinary < 0 then -startTimeBinary else startTimeBinary).emod (2 ^ 62)
      else t
  if dotNetEpochTicks < ticks then
    let unixMs := (ticks - dotNetEpochTicks) / 10000
    if 0 < unixMs ∧ unixMs < nowMs + 365 * 24 * 3600 * 1000 then unixMs else 0
  else 0

/-- Voltage range lookup table from utils.js (code to full-scale volts);
none for a code outside the table. -/
def VOLTAGE_RANGES (code : ℤ) : Option ℚ :=
  match code with
  | 0 => some 0.01
  | 1 => some 0.02
  | 2 => some 0.05
  | 3 => some 0.1
  | 4 => some 0.2
  | 5 => some 0.5
  | 6 => some 1.0
  | 7 => some 2.0
  | 8 => some 5.0
  | 9 => some 10.0
  | 10 => some 20.0
  | 11 => some 50.0
  | 12 => some 100.0
  | 13 => some 200.0
  | _ => none

/-- utils.convertAdcToPhysical.  The JavaScript default expression
VOLTAGE_RANGES[channelRange] or-else 5.0 falls back exactly when the code is
outside the table, since every table entry is nonzero (truthy).  There is no
check of maxAdcValue: the division is performed unconditionally (for
maxAdcValue = 0 JavaScript produces a non-finite number; the rational model
gives 0, and no theorem below relies on the value at that point). -/
def convertAdcToPhysical (rawAdc maxAdcValue channelRange channelScaling : ℤ) : ℚ :=
  let voltageRange := (VOLTAGE_RANGES channelRange).getD 5.0
  let millivolts := ((rawAdc : ℚ) / (maxAdcValue : ℚ)) * voltageRange * 1000
  let physicalValue := ((channelScaling : ℚ) / 1000.0) * millivolts
  physicalValue

/-- Configuration defect raised by the specified converter. -/
inductive ConfigError where
  | zeroMaxAdc
deriving DecidableEq, Repr

/-- Spec section 4.3 range table, written out from the table in the spec:
code 0 to 13 map to the listed full-scale volts, any other code to 5.0. -/
def rangeTableSpec (rangeCode : ℤ) : ℚ :=
  if rangeCode = 0 then 0.01 else if rangeCode = 1 then 0.02
  else if rangeCode = 2 then 0.05 else if rangeCode = 3 then 0.1
  else if rangeCode = 4 then 0.2 else if rangeCode = 5 then 0.5
  else if rangeCode = 6 then 1.0 else if rangeCode = 7 then 2.0
  else if rangeCode = 8 then 5.0 else if rangeCode = 9 then 10.0
  else if rangeCode = 10 then 20.0 else if rangeCode = 11 then 50.0
  else if rangeCode = 12 then 100.0 else if rangeCode = 13 then 200.0
  else 5.0

/-- Spec section 4.3 converter, written from the words of the spec for
comparison with the implementation: fails with ConfigError when maxAdc = 0,
otherwise physical = (scaling / 1000) * ((rawAdc / maxAdc) * voltageRange * 1000). -/
def toPhysicalSpec (rawAdc maxAdc rangeCode scaling : ℤ) : Except ConfigError ℚ :=
  if maxAdc = 0 then .error .zeroMaxAdc
  else
    let voltageRange := rangeTableSpec rangeCode
    let millivolts := ((rawAdc : ℚ) / (maxAdc : ℚ)) * voltageRange * 1000
    .ok (((scaling : ℚ) / 1000) * millivolts)

/-- Decoded channel record as stored in rawData and calculatedData:
time axis, values, label, unit, downsampling factor, recorded point count,
and (for calculated channels only) the list of source channel indices. -/
structure Channel where
  time : List ℚ
  values : List ℚ
  label : String
  unit : String
  downsampling : ℕ
  points : ℕ
  sourceChannels : List ℕ := []
deriving DecidableEq, Repr, Inhabited

/-- Header metadata consumed by readChannelData, as stored by readFile.
Downsampling factors are kept as naturals: the file stores Int32 values,
and a factor below 1 makes the JavaScript Float32Array allocation throw
before any channel is recorded, so only factors at least 1 are modelled
(the theorems carry that hypothesis explicitly). -/
structure Metadata where
  bufferSize : ℕ
  maxAdcValue : ℤ
  channelRanges : List ℤ
  channelScaling : List ℤ
  samplingInterval : ℚ
  downsampling : List ℕ
  units : List String
  labels : List String
deriving DecidableEq, Repr

/-- Signed 16-bit reinterpretation of a two-byte little-endian value. -/
def toInt16 (n : ℕ) : ℤ := if n % 65536 < 32768 then (n % 65536 : ℤ) else (n % 65536 : ℤ) - 65536

/-- Node buffer.readInt16LE: two bytes little-endian, signed; throws a
RangeError (modelled as Except.error at the offset) when the read would run
past the end of the buffer. -/
def readInt16LE (buffer : List ℕ) (off : ℕ) : Except ℕ ℤ :=
  if off + 2 ≤ buffer.length then
    .ok (toInt16 (buffer.getD off 0 + 256 * buffer.getD (off + 1) 0))
  else .error off

/-- Mutable state of the readChannelData loop: the running data offset, the
per-channel write indices, and the per-channel preallocated value arrays. -/
structure RdState where
  dataOffset : ℕ
  channelIndices : List ℕ
  channelDataArrays : List (List ℚ)
deriving DecidableEq, Repr

/-- One iteration of the inner channel loop of readChannelData: when the row
index j is a multiple of the downsampling factor of the channel, read one
Int16 sample, convert it, and store it at the running index of that channel.
The store uses List.set, which like a Float32Array store silently discards
out-of-bounds writes; the index is incremented regardless. -/
def sampleStep (meta : Metadata) (buffer : List ℕ) (j : ℕ) (st : RdState)
    (channel : ℕ) : Except ℕ RdState :=
  if j % meta.downsampling.getD channel 0 = 0 then
    match readInt16LE buffer st.dataOffset with
    | .error e => .error e
    | .ok rawAdc =>
      let physicalValue := convertAdcToPhysical rawAdc meta.maxAdcValue
        (meta.channelRanges.getD channel 0) (meta.channelScaling.getD channel 0)
      let idx := st.channelIndices.getD channel 0
      .ok { dataOffset := st.dataOffset + 2
            channelIndices := st.channelIndices.set channel (idx + 1)
            channelDataArrays := st.channelDataArrays.set channel
              ((st.channelDataArrays.getD channel []).set idx physicalValue) }
  else .ok st

/-- Inner for-loop of readChannelData over the channel indices of one row. -/
def channelLoop (meta : Metadata) (buffer : List ℕ) (j : ℕ) (st : RdState) :
    List ℕ → Except ℕ RdState
  | [] => .ok st
  | c :: rest =>
    match sampleStep meta buffer j st c with
    | .error e => .error e
    | .ok st1 => channelLoop meta buffer j st1 rest

/-- Outer for-loop of readChannelData over the row indices. -/
def rowLoop (meta : Metadata) (buffer : List ℕ) (st : RdState) :
    List ℕ → Except ℕ RdState
  | [] => .ok st
  | j :: rest =>
    match channelLoop meta buffer j st (List.range 8) with
    | .error e => .error e
    | .ok st1 => rowLoop meta buffer st1 rest

/-- BinaryReader.readChannelData: allocate one zero-filled array of
floor(bufferSize / downsampling[c]) slots per channel, then walk the rows in
the fixed row-major interleave (row j, channel c nested inner), consuming one
Int16 sample whenever j is divisible by the downsampling factor of c, and
finally package each channel with a freshly built time axis of actualPoints
entries spaced (samplingInterval * downsampling[c]) / 1e9 apart, where
actualPoints is the final value of the running write index. -/
def readChannelData (meta : Metadata) (buffer : List ℕ) (startOffset : ℕ) :
    Except ℕ (List Channel) :=
  let init : RdState :=
    { dataOffset := startOffset
      channelIndices := List.replicate 8 0
      channelDataArrays := (List.range 8).map
        (fun c => List.replicate (meta.bufferSize / meta.downsampling.getD c 0) 0) }
  match rowLoop meta buffer init (List.range meta.bufferSize) with
  | .error e => .error e
  | .ok st =>
    .ok ((List.range 8).map (fun channel =>
      let actualPoints := st.channelIndices.getD channel 0
      let dataArray := (st.channelDataArrays.getD channel []).take actualPoints
      let dtSeconds := meta.samplingInterval * (meta.downsampling.getD channel 0 : ℚ) / 1000000000
      { time := (List.range actualPoints).map (fun i => (i : ℚ) * dtSeconds)
        values := dataArray
        label := meta.labels.getD channel ""
        unit := meta.units.getD channel ""
        downsampling := meta.downsampling.getD channel 0
        points := actualPoints }))

/-- While-loop of DataProcessor.findTimeIndex: binary search over the time
array for the leftmost index whose entry is at least targetTime.  left and
right are JavaScript numbers that may leave the array range (right starts at
length - 1, so -1 on an empty array); the midpoint uses Math.floor, which on
the nonnegative sums reached here agrees with Int division by 2. -/
def btLoop (timeArray : List ℚ) (targetTime : ℚ) (left right : ℤ) : ℤ :=
  if left ≤ right then
    let mid := (left + right) / 2
    if getQ timeArray mid.toNat < targetTime then btLoop timeArray targetTime (mid + 1) right
    else btLoop timeArray targetTime left (mid - 1)
  else left
termination_by (right + 1 - left).toNat
decreasing_by
  all_goals
    have h2 : left ≤ (left + right) / 2 := by omega
    have h3 : (left + right) / 2 ≤ right := by omega
    omega

/-- DataProcessor.findTimeIndex: binary search, then clamp the landing index
into [0, length - 1]. -/
def findTimeIndex (timeArray : List ℚ) (targetTime : ℚ) : ℕ :=
  let left := btLoop timeArray targetTime 0 ((timeArray.length : ℤ) - 1)
  (max 0 (min ((timeArray.length : ℤ) - 1) left)).toNat

/-- DataProcessor.getChannelTimeStep: (samplingInterval * downsampling) / 1e9
for a channel carrying a truthy (nonzero) downsampling factor, the plain
samplingInterval / 1e9 default otherwise. -/
def getChannelTimeStep (samplingInterval : ℚ) (channelData : Option Channel) : ℚ :=
  match channelData with
  | none => samplingInterval / 1000000000
  | some ch =>
    if ch.downsampling = 0 then samplingInterval / 1000000000
    else samplingInterval * (ch.downsampling : ℚ) / 1000000000

/-- One iteration of the bucket loop of DataProcessor.getResampledData at
bucket start i: scan at most step values (stopping at endIdx), accumulating
min, max, sum and count exactly as the inner for-loop does (min and max are
seeded with values[i], which the j = 0 iteration revisits), then emit three
points on significant variation and one otherwise. -/
def emitBucket (ch : Channel) (endIdx step : ℕ) (timeStep : ℚ) (i : ℕ) :
    List ℚ × List ℚ :=
  let cnt := min step (endIdx - i)
  let vals := (List.range cnt).map (fun j => getQ ch.values (i + j))
  let mn := vals.foldl min (getQ ch.values i)
  let mx := vals.foldl max (getQ ch.values i)
  let sum := vals.foldl (· + ·) 0
  if 0 < cnt then
    let avg := sum / (cnt : ℚ)
    let t := getQ ch.time i
    if |avg| * 0.1 < |mx - mn| then
      ([t, t + timeStep, t + timeStep * 0.5], [mn, mx, avg])
    else ([t], [avg])
  else ([], [])

/-- Start indices visited by the bucket loop
for i = startIdx; i < endIdx; i += step.  The loop is only reached with
step at least 1 (step is floor(totalPoints / maxPoints) with
totalPoints > maxPoints, or the whole window when maxPoints = 0); the
step = 0 guard only keeps the definition total. -/
def bucketStarts (startIdx endIdx step : ℕ) : List ℕ :=
  if step = 0 then []
  else List.range' startIdx ((endIdx - startIdx + step - 1) / step) step

/-- DataProcessor.getResampledData (the variant dispatching on raw and
calculated channel ids; the Option argument is the looked-up channel, none
for an unknown id).  Window indices come from findTimeIndex; a window of at
most maxPoints points is returned as the exact slice
[startIdx, endIdx) of both arrays; otherwise the window is walked in buckets
of step = floor(totalPoints / maxPoints) samples.  JavaScript
floor(totalPoints / 0) is Infinity, making a single bucket that covers the
window, which the maxPoints = 0 branch reproduces. -/
def getResampledData (samplingInterval : ℚ) (channelData : Option Channel)
    (startTime endTime : ℚ) (maxPoints : ℕ) : List ℚ × List ℚ :=
  match channelData with
  | none => ([], [])
  | some ch =>
    let startIdx := findTimeIndex ch.time startTime
    let endIdx := findTimeIndex ch.time endTime
    let totalPoints := endIdx - startIdx
    if totalPoints ≤ maxPoints then
      ((ch.time.drop startIdx).take totalPoints,
       (ch.values.drop startIdx).take totalPoints)
    else
      let step := if maxPoints = 0 then totalPoints else totalPoints / maxPoints
      let timeStep := getChannelTimeStep samplingInterval (some ch)
      let starts := bucketStarts startIdx endIdx step
      (starts.flatMap (fun i => (emitBucket ch endIdx step timeStep i).1),
       starts.flatMap (fun i => (emitBucket ch endIdx step timeStep i).2))

/-- Current-transformer multiplier from the BinaryReader constructor. -/
def TRAFO_STROM_MULTIPLIER : ℚ := 35

/-- First force coefficient from the BinaryReader constructor. -/
def FORCE_COEFF_1 : ℚ := 6.2832

/-- Second force coefficient from the BinaryReader constructor. -/
def FORCE_COEFF_2 : ℚ := 5.0108

/-- Metadata of one calculated channel (label, unit, raw source indices),
one row of the calcChannelDefs object. -/
structure CalcDef where
  label : String
  unit : String
  sourceChannels : List ℕ
deriving DecidableEq, Repr

/-- The calcChannelDefs object of computeCalculatedChannels, in the order
Object.entries enumerates its integer-like keys. -/
def calcChannelDefs : List (ℕ × CalcDef) :=
  [(0, ⟨"UL3L1*", "V", [0, 1]⟩),
   (1, ⟨"IL2GR1*", "V", [2, 3]⟩),
   (2, ⟨"IL2GR2*", "V", [4, 5]⟩),
   (3, ⟨"I_DC_GR1*", "A", [2, 3]⟩),
   (4, ⟨"I_DC_GR2*", "A", [4, 5]⟩),
   (5, ⟨"U_DC*", "V", [0, 1]⟩),
   (6, ⟨"F_Schlitten*", "kN", [6, 7]⟩)]

/-- Values array of a raw channel in the rawData map (empty when absent; only
read after presence was validated). -/
def rawValues (rawData : ℕ → Option Channel) (ch : ℕ) : List ℚ :=
  ((rawData ch).map Channel.values).getD []

/-- BinaryReader.calculateDifferential: output[i] = coeff1 * data1[i] +
coeff2 * data2[i] for i below numPoints. -/
def calculateDifferential (rawData : ℕ → Option Channel) (ch1 ch2 : ℕ)
    (numPoints : ℕ) (coeff1 coeff2 : ℚ) : List ℚ :=
  (List.range numPoints).map (fun i =>
    coeff1 * getQ (rawValues rawData ch1) i + coeff2 * getQ (rawValues rawData ch2) i)

/-- BinaryReader.calculateDCCurrent: multiplier times the sum of the three
absolute values; when the differential channel has not been stored yet the
preallocated output stays zero-filled (the JavaScript early return after the
console warning). -/
def calculateDCCurrent (rawData calculatedData : ℕ → Option Channel)
    (ch1 ch2 diffChannelIndex numPoints : ℕ) : List ℚ :=
  match calculatedData diffChannelIndex with
  | none => List.replicate numPoints 0
  | some diff =>
    (List.range numPoints).map (fun i =>
      TRAFO_STROM_MULTIPLIER *
        (|getQ (rawValues rawData ch1) i| + |getQ (rawValues rawData ch2) i| +
          |getQ diff.values i|))

/-- BinaryReader.calculateDCVoltage: the sum of the three absolute values
divided by the multiplier; same zero-filled fallback as calculateDCCurrent. -/
def calculateDCVoltage (rawData calculatedData : ℕ → Option Channel)
    (ch1 ch2 diffChannelIndex numPoints : ℕ) : List ℚ :=
  match calculatedData diffChannelIndex with
  | none => List.replicate numPoints 0
  | some diff =>
    (List.range numPoints).map (fun i =>
      (|getQ (rawValues rawData ch1) i| + |getQ (rawValues rawData ch2) i| +
        |getQ diff.values i|) / TRAFO_STROM_MULTIPLIER)

/-- BinaryReader.calculateForce: output[i] = data1[i] * 6.2832 - data2[i] * 5.0108. -/
def calculateForce (rawData : ℕ → Option Channel) (ch1 ch2 numPoints : ℕ) : List ℚ :=
  (List.range numPoints).map (fun i =>
    getQ (rawValues rawData ch1) i * FORCE_COEFF_1 -
      getQ (rawValues rawData ch2) i * FORCE_COEFF_2)

/-- BinaryReader.computeSingleCalculatedChannel: validate that every listed
raw source channel exists (returning null plus the console warning naming the
first missing source, modelled as an error carrying (sourceChannel,
calcIndex)); then build the channel from the primary (first-listed) source:
its time axis is copied, numPoints is its recorded point count, and the
values come from the per-index switch.  Unknown calcIndex values are
unreachable from computeCalculatedChannels (the JavaScript default arm
returns null after a warning); they get an empty values array here. -/
def computeSingleCalculatedChannel (rawData calculatedData : ℕ → Option Channel)
    (calcIndex : ℕ) (cdef : CalcDef) : Except (ℕ × ℕ) Channel :=
  match cdef.sourceChannels.find? (fun srcCh => (rawData srcCh).isNone) with
  | some srcCh => .error (srcCh, calcIndex)
  | none =>
    let primaryChannel := cdef.sourceChannels.getD 0 0
    let primaryData := (rawData primaryChannel).getD default
    let numPoints := primaryData.points
    let valuesArray :=
      match calcIndex with
      | 0 => calculateDifferential rawData 0 1 numPoints (-1) (-1)
      | 1 => calculateDifferential rawData 2 3 numPoints (-1) (-1)
      | 2 => calculateDifferential rawData 4 5 numPoints (-1) (-1)
      | 3 => calculateDCCurrent rawData calculatedData 2 3 1 numPoints
      | 4 => calculateDCCurrent rawData calculatedData 4 5 2 numPoints
      | 5 => calculateDCVoltage rawData calculatedData 0 1 0 numPoints
      | 6 => calculateForce rawData 6 7 numPoints
      | _ => []
    .ok { time := primaryData.time
          values := valuesArray
          label := cdef.label
          unit := cdef.unit
          downsampling := primaryData.downsampling
          points := numPoints
          sourceChannels := cdef.sourceChannels }

/-- State threaded through the computeCalculatedChannels loop: the
calculatedData map and the recorded warnings (source channel, calc index). -/
structure EngineState where
  calculatedData : ℕ → Option Channel
  warnings : List (ℕ × ℕ)

/-- Store for the calculatedData map. -/
def updateCalc (m : ℕ → Option Channel) (k : ℕ) (v : Channel) : ℕ → Option Channel :=
  fun x => if x = k then some v else m x

/-- One iteration of the computeCalculatedChannels loop: a non-null result is
stored under its calc index, a null result leaves the map unchanged and
records the warning. -/
def engineStep (rawData : ℕ → Option Channel) (st : EngineState)
    (entry : ℕ × CalcDef) : EngineState :=
  match computeSingleCalculatedChannel rawData st.calculatedData entry.1 entry.2 with
  | .ok ch => { st with calculatedData := updateCalc st.calculatedData entry.1 ch }
  | .error w => { st with warnings := st.warnings ++ [w] }

/-- BinaryReader.computeCalculatedChannels: fold the per-channel computation
over the seven definitions in enumeration order, starting from an empty
calculatedData map. -/
def computeCalculatedChannels (rawData : ℕ → Option Channel) : EngineState :=
  calcChannelDefs.foldl (engineStep rawData) ⟨fun _ => none, []⟩

/-- Example channel for the resampler witnesses. -/
def exSliceCh : Channel :=
  { time := [0, 1, 2], values := [10, 20, 30], label := "", unit := "",
    downsampling := 1, points := 3 }

/-- Example channel with spike buckets for the resampler witnesses and the
C3 counterexample: window [0, 4), budget 2, step 2, each bucket holding one
0 and one 100. -/
def exSpikeCh : Channel :=
  { time := [0, 1, 2, 3, 4], values := [0, 100, 0, 100, 0],
    label := "", unit := "", downsampling := 1, points := 5 }

/-- Header with maxAdcValue = 0 used by the C2 counterexample. -/
def c2meta : Metadata :=
  { bufferSize := 1
    maxAdcValue := 0
    channelRanges := [8, 8, 8, 8, 8, 8, 8, 8]
    channelScaling := [1000, 1000, 1000, 1000, 1000, 1000, 1000, 1000]
    samplingInterval := 1000000000
    downsampling := [1, 1, 1, 1, 1, 1, 1, 1]
    units := ["", "", "", "", "", "", "", ""]
    labels := ["", "", "", "", "", "", "", ""] }

/-- Header used by the C1 failing input: bufferSize 5 is not needed, the
smallest mismatch already appears at bufferSize 1 with downsampling factor 2
on channel 0 (and 1 on the others): floor(1 / 2) = 0 slots are allocated,
yet row 0 consumes one sample for channel 0. -/
def c1meta : Metadata :=
  { bufferSize := 1
    maxAdcValue := 1
    channelRanges := [8, 8, 8, 8, 8, 8, 8, 8]
    channelScaling := [1000, 1000, 1000, 1000, 1000, 1000, 1000, 1000]
    samplingInterval := 1000000000
    downsampling := [2, 1, 1, 1, 1, 1, 1, 1]
    units := ["", "", "", "", "", "", "", ""]
    labels := ["", "", "", "", "", "", "", ""] }

/-- Channel 0 as actually decoded from the C1 failing input: the write at
index 0 of the zero-length array was discarded, the index still advanced. -/
def c1chan0 : Channel :=
  { time := [0], values := [], label := "", unit := "", downsampling := 2, points := 1 }

/-- Channels 1 to 7 as decoded from the C1 failing input. -/
def c1chanRest : Channel :=
  { time := [0], values := [0], label := "", unit := "", downsampling := 1, points := 1 }

/-- The full decode result for the C1 failing input. -/
def c1decoded : List Channel :=
  [c1chan0, c1chanRest, c1chanRest, c1chanRest, c1chanRest, c1chanRest,
    c1chanRest, c1chanRest]

/-- Recorded point count of a raw channel in the map (0 when absent). -/
def pointsOfRaw (rawData : ℕ → Option Channel) (c : ℕ) : ℕ :=
  ((rawData c).map Channel.points).getD 0

/-- The values every derived channel must carry, expressed from the raw map
alone (no reference to previously computed derived channels): the real
formula of each channel with its differential dependency expanded.  A stored
derived channel whose values differ from this (for example a zero-filled
placeholder) would violate the claim. -/
def expectedCalcValues (rawData : ℕ → Option Channel) : ℕ → List ℚ
  | 0 => calculateDifferential rawData 0 1 (pointsOfRaw rawData 0) (-1) (-1)
  | 1 => calculateDifferential rawData 2 3 (pointsOfRaw rawData 2) (-1) (-1)
  | 2 => calculateDifferential rawData 4 5 (pointsOfRaw rawData 4) (-1) (-1)
  | 3 => (List.range (pointsOfRaw rawData 2)).map (fun i =>
      TRAFO_STROM_MULTIPLIER *
        (|getQ (rawValues rawData 2) i| + |getQ (rawValues rawData 3) i| +
          |getQ (calculateDifferential rawData 2 3 (pointsOfRaw rawData 2) (-1) (-1)) i|))
  | 4 => (List.range (pointsOfRaw rawData 4)).map (fun i =>
      TRAFO_STROM_MULTIPLIER *
        (|getQ (rawValues rawData 4) i| + |getQ (rawValues rawData 5) i| +
          |getQ (calculateDifferential rawData 4 5 (pointsOfRaw rawData 4) (-1) (-1)) i|))
  | 5 => (List.range (pointsOfRaw rawData 0)).map (fun i =>
      (|getQ (rawValues rawData 0) i| + |getQ (rawValues rawData 1) i| +
          |getQ (calculateDifferential rawData 0 1 (pointsOfRaw rawData 0) (-1) (-1)) i|) /
        TRAFO_STROM_MULTIPLIER)
  | 6 => calculateForce rawData 6 7 (pointsOfRaw rawData 6)
  | _ => []

/-- Example channel present on every raw slot that a witness does not care
about. -/
def exUnitCh : Channel :=
  { time := [0], values := [0], label := "", unit := "", downsampling := 1, points := 1 }

/-- Raw map with channel 2 absent, used by the C8 witness. -/
def exMissingRaw : ℕ → Option Channel := fun n =>
  if n = 2 then none else some exUnitCh

/-- Primary input channel of the C6 witness. -/
def exD0ChA : Channel :=
  { time := [0, 1, 2], values := [1, 2, 3], label := "", unit := "",
    downsampling := 1, points := 3 }

/-- Second input channel of the C6 witness. -/
def exD0ChB : Channel :=
  { time := [0, 1, 2], values := [0, 1, 1], label := "", unit := "",
    downsampling := 1, points := 3 }

/-- Raw map for the C6 and C10 witnesses: channels 0 and 1 carry the test
vectors, all other channels a one-point channel. -/
def c6raw : ℕ → Option Channel := fun n =>
  if n = 0 then some exD0ChA else if n = 1 then some exD0ChB else some exUnitCh

/-- Values of one resampling bucket: the window slice starting at i,
at most step long, stopping at endIdx. -/
def bucketSlice (ch : Channel) (endIdx step i : ℕ) : List ℚ :=
  (ch.values.drop i).take (min step (endIdx - i))

/-- Declarative minimum of a bucket. -/
def bucketMin (ch : Channel) (endIdx step i : ℕ) : ℚ :=
  (bucketSlice ch endIdx step i).min?.getD 0

/-- Declarative maximum of a bucket. -/
def bucketMax (ch : Channel) (endIdx step i : ℕ) : ℚ :=
  (bucketSlice ch endIdx step i).max?.getD 0

/-- Declarative average of a bucket. -/
def bucketAvg (ch : Channel) (endIdx step i : ℕ) : ℚ :=
  (bucketSlice ch endIdx step i).sum / ((bucketSlice ch endIdx step i).length : ℚ)

/-- Time points one bucket contributes under the amended claim: three points
at t, t + dt and t + 0.5 * dt on significant variation, one point at t
otherwise. -/
def specBucketTime (ch : Channel) (endIdx step : ℕ) (dt : ℚ) (i : ℕ) : List ℚ :=
  if |bucketAvg ch endIdx step i| * 0.1 <
      |bucketMax ch endIdx step i - bucketMin ch endIdx step i| then
    [getQ ch.time i, getQ ch.time i + dt, getQ ch.time i + dt * 0.5]
  else [getQ ch.time i]

/-- Value points one bucket contributes under the amended claim: min, max,
avg on significant variation, avg alone otherwise. -/
def specBucketVals (ch : Channel) (endIdx step : ℕ) (i : ℕ) : List ℚ :=
  if |bucketAvg ch endIdx step i| * 0.1 <
      |bucketMax ch endIdx step i - bucketMin ch endIdx step i| then
    [bucketMin ch endIdx step i, bucketMax ch endIdx step i, bucketAvg ch endIdx step i]
  else [bucketAvg ch endIdx step i]

/-!
Theorems.
-/

/-- C7: convertBinaryTimestampToUnixMs masks rawTicks to its low 62 bits
regardless of sign (the negative-input branch of the source collapses to the
same mask, its inner ticks-below-zero arm being dead), and when the masked
ticks exceed the epoch offset it returns (ticks - epochOffset) / 10000 by
integer division provided that result lies strictly between 0 and
nowMs + one year, returning the sentinel 0 in every other case; in
particular one hour past the epoch converts to 3600000 ms for any
nonnegative clock value. -/
theorem c7_timestamp_conversion :
    (∀ x nowMs : ℤ,
      convertBinaryTimestampToUnixMs x nowMs =
        if dotNetEpochTicks < x.emod (2 ^ 62)
            ∧ 0 < (x.emod (2 ^ 62) - dotNetEpochTicks) / 10000
            ∧ (x.emod (2 ^ 62) - dotNetEpochTicks) / 10000 <
                nowMs + 365 * 24 * 3600 * 1000
        then (x.emod (2 ^ 62) - dotNetEpochTicks) / 10000 else 0)
    ∧ (∀ nowMs : ℤ, 0 ≤ nowMs →
        convertBinaryTimestampToUnixMs (dotNetEpochTicks + 36000000000) nowMs = 3600000) := by
  have key : ∀ x nowMs : ℤ,
      convertBinaryTimestampToUnixMs x nowMs =
        if dotNetEpochTicks < x.emod (2 ^ 62)
            ∧ 0 < (x.emod (2 ^ 62) - dotNetEpochTicks) / 10000
            ∧ (x.emod (2 ^ 62) - dotNetEpochTicks) / 10000 <
                nowMs + 365 * 24 * 3600 * 1000
        then (x.emod (2 ^ 62) - dotNetEpochTicks) / 10000 else 0 := by
    intro x nowMs
    have hnn : 0 ≤ x.emod (2 ^ 62) := Int.emod_nonneg x (by norm_num)
    have hflat : convertBinaryTimestampToUnixMs x nowMs =
        (if dotNetEpochTicks < x.emod (2 ^ 62) then
          if 0 < (x.emod (2 ^ 62) - dotNetEpochTicks) / 10000 ∧
              (x.emod (2 ^ 62) - dotNetEpochTicks) / 10000 <
                nowMs + 365 * 24 * 3600 * 1000
          then (x.emod (2 ^ 62) - dotNetEpochTicks) / 10000 else 0
         else 0) := by
      simp only [convertBinaryTimestampToUnixMs]
      by_cases hx : 0 ≤ x
      · rw [if_pos hx]
      · rw [if_neg hx, if_neg (not_lt.mpr hnn)]
    rw [hflat]
    split_ifs <;> first | rfl | tauto
  refine ⟨key, fun nowMs hnow => ?_⟩
  rw [key]
  have hx : (dotNetEpochTicks + 36000000000).emod (2 ^ 62) =
      dotNetEpochTicks + 36000000000 :=
    Int.emod_eq_of_lt (by norm_num [dotNetEpochTicks]) (by norm_num [dotNetEpochTicks])
  rw [hx]
  have hdiv : (dotNetEpochTicks + 36000000000 - dotNetEpochTicks) / 10000 = 3600000 := by
    norm_num
  rw [if_pos]
  · exact hdiv
  · refine ⟨by norm_num [dotNetEpochTicks], by rw [hdiv]; norm_num, by rw [hdiv]; omega⟩

/-- Witness for C7: the concrete one-hour instance at a fixed clock value. -/
theorem c7_timestamp_conversion_witness :
    convertBinaryTimestampToUnixMs (dotNetEpochTicks + 36000000000) 1760227200000 = 3600000 :=
  c7_timestamp_conversion.2 1760227200000 (by norm_num)

lemma readStringLen_bounds (buffer : List ℕ) (off : ℕ) (acc : ℤ) (shift : ℕ)
    (len : ℤ) (cur : ℕ) (h : readStringLen buffer off acc shift = .ok (len, cur)) :
    off < cur ∧ cur ≤ buffer.length := by
  suffices H : ∀ (n off : ℕ) (acc : ℤ) (shift : ℕ), buffer.length - off ≤ n →
      readStringLen buffer off acc shift = .ok (len, cur) →
      off < cur ∧ cur ≤ buffer.length from
    H buffer.length off acc shift (by omega) h
  intro n
  induction n with
  | zero =>
    intro off acc shift hle h0
    rw [readStringLen] at h0
    split at h0
    next hlt => omega
    next => cases h0
  | succ n ih =>
    intro off acc shift hle h0
    rw [readStringLen] at h0
    split at h0
    next hlt =>
      split at h0
      · simp only [Except.ok.injEq, Prod.mk.injEq] at h0
        omega
      · have := ih (off + 1) _ _ (by omega) h0
        omega
    next => simp at h0

/-- C4 (amended): readCSharpString fails with the truncation error exactly
when one of the length-prefix byte reads runs past the end of the buffer;
the subsequent string-byte read never fails, because buffer.subarray clamps
to the available bytes, so when the decoded length exceeds what remains the
call silently returns the min(length, remaining) available bytes, a string
shorter than the decoded length, while still advancing the returned offset
by the full decoded length. -/
theorem c4_truncation_amended (buffer : List ℕ) (off : ℕ) :
    (∀ e, readStringLen buffer off 0 0 = .error e →
        readCSharpString buffer off = .error e)
    ∧ (∀ (len : ℤ) (cur : ℕ),
        readStringLen buffer off 0 0 = .ok (len, cur) → 0 < len →
        readCSharpString buffer off =
          .ok ((buffer.drop cur).take (min len.toNat (buffer.length - cur)),
            (cur : ℤ) + len)) := by
  constructor
  · intro e he
    rw [readCSharpString, he]
  · intro len cur h hpos
    obtain ⟨h1, h2⟩ := readStringLen_bounds buffer off 0 0 len cur h
    have hs : subarrayIdx buffer.length (cur : ℤ) = cur := by
      rw [subarrayIdx, if_neg (by omega)]
      omega
    have he : subarrayIdx buffer.length ((cur : ℤ) + len) =
        min (cur + len.toNat) buffer.length := by
      rw [subarrayIdx, if_neg (by omega)]
      omega
    have harg : min (cur + len.toNat) buffer.length - cur =
        min len.toNat (buffer.length - cur) := by omega
    simp only [readCSharpString, h, if_neg (show ¬len = 0 by omega), hs, he, harg]

/-- Witness for C4 (amended): a length prefix of 2 with a single remaining
byte yields that byte and an offset advanced past the end. -/
theorem c4_truncation_amended_witness :
    readCSharpString [2, 65] 0 = .ok ([65], 3) := by
  have h := (c4_truncation_amended [2, 65] 0).2 2 1
    (by simp [readStringLen]; decide) (by norm_num)
  simpa using h

/-- Counterexample for C4 as stated: on the buffer [5, 104, 101] the decoded
length is 5 but only two string bytes remain; the claimed TruncatedFileError
does not occur, and a silently shortened two-byte string is returned with
the offset advanced to 6, past the end of the buffer. -/
theorem c4_counterexample :
    readStringLen [5, 104, 101] 0 0 0 = .ok (5, 1)
    ∧ readCSharpString [5, 104, 101] 0 = .ok ([104, 101], 6)
    ∧ ([104, 101] : List ℕ).length < 5 := by
  refine ⟨by simp [readStringLen]; decide, ?_, by norm_num⟩
  simp [readCSharpString, readStringLen]
  decide

/-- C5: whenever the looked-up window holds at most maxPoints points, the
resampler returns the exact input slice [startIdx, endIdx) of both the time
and the values array, with no point altered, added, or dropped. -/
theorem c5_identity_slice (samplingInterval : ℚ) (ch : Channel)
    (startTime endTime : ℚ) (maxPoints : ℕ)
    (h : findTimeIndex ch.time endTime - findTimeIndex ch.time startTime ≤ maxPoints) :
    getResampledData samplingInterval (some ch) startTime endTime maxPoints =
      ((ch.time.drop (findTimeIndex ch.time startTime)).take
          (findTimeIndex ch.time endTime - findTimeIndex ch.time startTime),
        (ch.values.drop (findTimeIndex ch.time startTime)).take
          (findTimeIndex ch.time endTime - findTimeIndex ch.time startTime)) := by
  simp only [getResampledData, if_pos h]

lemma findTimeIndex_exSlice_lo : findTimeIndex exSliceCh.time 0 = 0 := by
  have h1 : btLoop [0, 1, 2] 0 0 2 = 0 := by
    rw [btLoop]
    norm_num [getQ, Int.toNat]
    rw [btLoop]
    norm_num [getQ, Int.toNat]
    rw [btLoop]
    norm_num
  norm_num [findTimeIndex, exSliceCh, h1, Int.toNat]

lemma findTimeIndex_exSlice_hi : findTimeIndex exSliceCh.time 10 = 2 := by
  have h1 : btLoop [0, 1, 2] 10 0 2 = 3 := by
    rw [btLoop]
    norm_num [getQ, Int.toNat]
    rw [btLoop]
    norm_num [getQ, Int.toNat]
    rw [btLoop]
    norm_num
  norm_num [findTimeIndex, exSliceCh, h1, Int.toNat]

/-- Witness for C5: a three-point channel with a budget of five points is
returned as the exact slice of the window. -/
theorem c5_identity_slice_witness :
    getResampledData 1 (some exSliceCh) 0 10 5 = ([0, 1], [10, 20]) := by
  have h := c5_identity_slice 1 exSliceCh 0 10 5
    (by rw [findTimeIndex_exSlice_lo, findTimeIndex_exSlice_hi]; norm_num)
  rw [h, findTimeIndex_exSlice_lo, findTimeIndex_exSlice_hi]
  norm_num [exSliceCh]

lemma emitBucket_lengths (ch : Channel) (endIdx step : ℕ) (timeStep : ℚ) (i : ℕ) :
    (emitBucket ch endIdx step timeStep i).1.length =
    (emitBucket ch endIdx step timeStep i).2.length := by
  simp only [emitBucket]
  split
  · split <;> rfl
  · rfl

/-- C9: for every channel reference, known or unknown, and every window and
point budget, the resampled time and values arrays have the same length: the
unknown-channel result is a pair of empty arrays, the identity path slices
two arrays of equal length at the same indices, and the bucketed path pushes
one or three points to both arrays in lockstep. -/
theorem c9_equal_lengths (samplingInterval : ℚ) (channelData : Option Channel)
    (startTime endTime : ℚ) (maxPoints : ℕ)
    (hwf : ∀ ch, channelData = some ch → ch.time.length = ch.values.length) :
    (getResampledData samplingInterval channelData startTime endTime maxPoints).1.length =
    (getResampledData samplingInterval channelData startTime endTime maxPoints).2.length := by
  cases channelData with
  | none => rfl
  | some ch =>
    have hlen := hwf ch rfl
    simp only [getResampledData]
    split
    · simp [hlen]
    · simp only [List.length_flatMap]
      congr 1
      exact List.map_congr_left (fun i _ => emitBucket_lengths ch _ _ _ i)

/-- Witness for C9: lengths agree on a concrete bucketed resample. -/
theorem c9_equal_lengths_witness :
    (getResampledData 1000000000 (some exSpikeCh) 0 100 2).1.length =
    (getResampledData 1000000000 (some exSpikeCh) 0 100 2).2.length :=
  c9_equal_lengths 1000000000 (some exSpikeCh) 0 100 2
    (fun ch h => by cases h; rfl)

lemma range_table_agrees (c : ℤ) : rangeTableSpec c = (VOLTAGE_RANGES c).getD 5.0 := by
  unfold VOLTAGE_RANGES
  split <;> simp_all [rangeTableSpec]

/-- C2 (amended): convertAdcToPhysical performs no maxAdc check and never
raises a ConfigError: decoding proceeds even when maxAdcValue = 0 and
converts every sample that is present (the JavaScript division by zero then
yields non-finite values).  For maxAdc different from 0 the computed value
is exactly the specified (scaling / 1000) * ((rawAdc / maxAdc) *
voltageRange * 1000), with voltageRange taken from the 14-entry range table
and defaulting to 5.0 for any code outside the table. -/
theorem c2_physical_conversion_amended :
    (∀ rawAdc maxAdc rangeCode scaling : ℤ, maxAdc ≠ 0 →
      toPhysicalSpec rawAdc maxAdc rangeCode scaling =
        .ok (convertAdcToPhysical rawAdc maxAdc rangeCode scaling))
    ∧ (∀ rangeCode : ℤ, rangeCode < 0 ∨ 13 < rangeCode →
        (VOLTAGE_RANGES rangeCode).getD 5.0 = 5.0) := by
  constructor
  · intro rawAdc maxAdc rangeCode scaling h
    simp only [toPhysicalSpec, if_neg h, convertAdcToPhysical, range_table_agrees]
    norm_num
  · intro rangeCode h
    unfold VOLTAGE_RANGES
    split <;> first | (exfalso; omega) | simp

/-- Witness for C2 (amended): a concrete in-table conversion. -/
theorem c2_physical_conversion_amended_witness :
    toPhysicalSpec 100 4096 8 1000 = .ok (convertAdcToPhysical 100 4096 8 1000) :=
  c2_physical_conversion_amended.1 100 4096 8 1000 (by norm_num)

/-- Counterexample for C2 as stated: with maxAdcValue = 0 the decode does not
abort (readChannelData succeeds) and a sample is converted and recorded for
channel 0 (its point count is 1), while the specified converter would have
failed with ConfigError on the same sample. -/
theorem c2_counterexample :
    (readChannelData c2meta (List.replicate 16 1) 0).isOk = true
    ∧ (((readChannelData c2meta (List.replicate 16 1) 0).toOption.getD []).getD 0
        default).points = 1
    ∧ toPhysicalSpec 1 0 8 1000 = .error .zeroMaxAdc := by
  refine ⟨?_, ?_, by rw [toPhysicalSpec, if_pos rfl]⟩ <;>
    simp [readChannelData, rowLoop, channelLoop, sampleStep, readInt16LE, toInt16,
      c2meta, convertAdcToPhysical, VOLTAGE_RANGES, List.range_succ,
      List.replicate, Except.isOk, Except.toBool, Except.toOption]

/-- C1 (code evaluated at the failing input): with bufferSize 1 and
downsampling factor 2 the decode succeeds and records channel 0 with
points = 1, although floor(bufferSize / downsamplingFactor) = 0; the time
array has length 1 while the values array has length 0, so the recorded
count matches neither floor nor the values array, and the two sequences
differ in length — the invariant claimed for every buffer and factor fails
whenever the factor does not divide bufferSize. -/
theorem c1_point_count_eval :
    readChannelData c1meta (List.replicate 16 0) 0 = .ok c1decoded
    ∧ (c1decoded.getD 0 default).points = 1
    ∧ c1meta.bufferSize / c1meta.downsampling.getD 0 0 = 0
    ∧ (c1decoded.getD 0 default).time.length = 1
    ∧ (c1decoded.getD 0 default).values.length = 0 := by
  refine ⟨?_, rfl, rfl, rfl, rfl⟩
  simp [readChannelData, rowLoop, channelLoop, sampleStep, readInt16LE, toInt16,
    c1meta, convertAdcToPhysical, VOLTAGE_RANGES, List.range_succ,
    c1decoded, c1chan0, c1chanRest]

/-- Counterexample for C3 as stated: on the spike channel with window
[0, 4), budget 2 and hence step 2 and dt = 1, the code emits the bucket
times (t, t + dt, t + 0.5 * dt); the claimed times (t, t + dt * step,
t + 0.5 * dt * step) would be (0, 2, 1) for the first bucket and (2, 4, 3)
for the second, and the produced list differs from them. -/
theorem c3_counterexample :
    (getResampledData 1000000000 (some exSpikeCh) 0 100 2).1 = [0, 1, 1/2, 2, 3, 5/2]
    ∧ (getResampledData 1000000000 (some exSpikeCh) 0 100 2).1 ≠
        [0, 0 + 1 * 2, 0 + 0.5 * (1 * 2), 2, 2 + 1 * 2, 2 + 0.5 * (1 * 2)] := by
  have h : (getResampledData 1000000000 (some exSpikeCh) 0 100 2).1 =
      [0, 1, 1/2, 2, 3, 5/2] := by
    simp [getResampledData, findTimeIndex, btLoop, getQ, exSpikeCh,
      getChannelTimeStep, bucketStarts, emitBucket, List.range',
      List.range_succ, Int.toNat]
    norm_num [List.flatMap, List.range_succ, List.foldl]
  refine ⟨h, ?_⟩
  rw [h]
  norm_num

lemma engineStep_calc_ne (rawData : ℕ → Option Channel) (st : EngineState)
    (k j : ℕ) (d : CalcDef) (h : k ≠ j) :
    (engineStep rawData st (j, d)).calculatedData k = st.calculatedData k := by
  rw [engineStep]
  cases hc : computeSingleCalculatedChannel rawData st.calculatedData j d <;>
    simp [updateCalc, h]

lemma engineStep_calc_eq (rawData : ℕ → Option Channel) (st : EngineState)
    (k : ℕ) (d : CalcDef) :
    (engineStep rawData st (k, d)).calculatedData k =
      (match computeSingleCalculatedChannel rawData st.calculatedData k d with
        | .ok ch => some ch
        | .error _ => st.calculatedData k) := by
  rw [engineStep]
  cases hc : computeSingleCalculatedChannel rawData st.calculatedData k d <;>
    simp [updateCalc]

lemma engineStep_warnings (rawData : ℕ → Option Channel) (st : EngineState)
    (e : ℕ × CalcDef) :
    (engineStep rawData st e).warnings =
      st.warnings ++
        (match computeSingleCalculatedChannel rawData st.calculatedData e.1 e.2 with
          | .ok _ => []
          | .error w => [w]) := by
  rw [engineStep]
  cases hc : computeSingleCalculatedChannel rawData st.calculatedData e.1 e.2 <;> simp

lemma engine_calc0_some (rawData : ℕ → Option Channel) (ca cb : Channel)
    (ha : rawData 0 = some ca) (hb : rawData 1 = some cb) :
    (computeCalculatedChannels rawData).calculatedData 0 =
      some { time := ca.time
             values := calculateDifferential rawData 0 1 ca.points (-1) (-1)
             label := "UL3L1*", unit := "V", downsampling := ca.downsampling
             points := ca.points, sourceChannels := [0, 1] } := by
  simp only [computeCalculatedChannels, calcChannelDefs, List.foldl_cons, List.foldl_nil]
  simp [engineStep_calc_ne, engineStep_calc_eq, computeSingleCalculatedChannel,
    ha, hb]

lemma engine_calc1_some (rawData : ℕ → Option Channel) (ca cb : Channel)
    (ha : rawData 2 = some ca) (hb : rawData 3 = some cb) :
    (computeCalculatedChannels rawData).calculatedData 1 =
      some { time := ca.time
             values := calculateDifferential rawData 2 3 ca.points (-1) (-1)
             label := "IL2GR1*", unit := "V", downsampling := ca.downsampling
             points := ca.points, sourceChannels := [2, 3] } := by
  simp only [computeCalculatedChannels, calcChannelDefs, List.foldl_cons, List.foldl_nil]
  simp [engineStep_calc_ne, engineStep_calc_eq, computeSingleCalculatedChannel,
    ha, hb]

lemma engine_calc2_some (rawData : ℕ → Option Channel) (ca cb : Channel)
    (ha : rawData 4 = some ca) (hb : rawData 5 = some cb) :
    (computeCalculatedChannels rawData).calculatedData 2 =
      some { time := ca.time
             values := calculateDifferential rawData 4 5 ca.points (-1) (-1)
             label := "IL2GR2*", unit := "V", downsampling := ca.downsampling
             points := ca.points, sourceChannels := [4, 5] } := by
  simp only [computeCalculatedChannels, calcChannelDefs, List.foldl_cons, List.foldl_nil]
  simp [engineStep_calc_ne, engineStep_calc_eq, computeSingleCalculatedChannel,
    ha, hb]

lemma engine_calc3_some (rawData : ℕ → Option Channel) (ca cb : Channel)
    (ha : rawData 2 = some ca) (hb : rawData 3 = some cb) :
    (computeCalculatedChannels rawData).calculatedData 3 =
      some { time := ca.time
             values := (List.range ca.points).map (fun i =>
               TRAFO_STROM_MULTIPLIER *
                 (|getQ ca.values i| + |getQ cb.values i| +
                   |getQ (calculateDifferential rawData 2 3 ca.points (-1) (-1)) i|))
             label := "I_DC_GR1*", unit := "A", downsampling := ca.downsampling
             points := ca.points, sourceChannels := [2, 3] } := by
  simp only [computeCalculatedChannels, calcChannelDefs, List.foldl_cons, List.foldl_nil]
  simp [engineStep_calc_ne, engineStep_calc_eq, computeSingleCalculatedChannel,
    calculateDCCurrent, rawValues, ha, hb]

lemma engine_calc4_some (rawData : ℕ → Option Channel) (ca cb : Channel)
    (ha : rawData 4 = some ca) (hb : rawData 5 = some cb) :
    (computeCalculatedChannels rawData).calculatedData 4 =
      some { time := ca.time
             values := (List.range ca.points).map (fun i =>
               TRAFO_STROM_MULTIPLIER *
                 (|getQ ca.values i| + |getQ cb.values i| +
                   |getQ (calculateDifferential rawData 4 5 ca.points (-1) (-1)) i|))
             label := "I_DC_GR2*", unit := "A", downsampling := ca.downsampling
             points := ca.points, sourceChannels := [4, 5] } := by
  simp only [computeCalculatedChannels, calcChannelDefs, List.foldl_cons, List.foldl_nil]
  simp [engineStep_calc_ne, engineStep_calc_eq, computeSingleCalculatedChannel,
    calculateDCCurrent, rawValues, ha, hb]

lemma engine_calc5_some (rawData : ℕ → Option Channel) (ca cb : Channel)
    (ha : rawData 0 = some ca) (hb : rawData 1 = some cb) :
    (computeCalculatedChannels rawData).calculatedData 5 =
      some { time := ca.time
             values := (List.range ca.points).map (fun i =>
               (|getQ ca.values i| + |getQ cb.values i| +
                   |getQ (calculateDifferential rawData 0 1 ca.points (-1) (-1)) i|) /
                 TRAFO_STROM_MULTIPLIER)
             label := "U_DC*", unit := "V", downsampling := ca.downsampling
             points := ca.points, sourceChannels := [0, 1] } := by
  simp only [computeCalculatedChannels, calcChannelDefs, List.foldl_cons, List.foldl_nil]
  simp [engineStep_calc_ne, engineStep_calc_eq, computeSingleCalculatedChannel,
    calculateDCVoltage, rawValues, ha, hb]

lemma engine_calc6_some (rawData : ℕ → Option Channel) (ca cb : Channel)
    (ha : rawData 6 = some ca) (hb : rawData 7 = some cb) :
    (computeCalculatedChannels rawData).calculatedData 6 =
      some { time := ca.time
             values := calculateForce rawData 6 7 ca.points
             label := "F_Schlitten*", unit := "kN", downsampling := ca.downsampling
             points := ca.points, sourceChannels := [6, 7] } := by
  simp only [computeCalculatedChannels, calcChannelDefs, List.foldl_cons, List.foldl_nil]
  simp [engineStep_calc_ne, engineStep_calc_eq, computeSingleCalculatedChannel,
    ha, hb]

lemma foldl_warn_mono (rawData : ℕ → Option Channel) (l : List (ℕ × CalcDef))
    (st : EngineState) (w : ℕ × ℕ) (h : w ∈ st.warnings) :
    w ∈ (l.foldl (engineStep rawData) st).warnings := by
  induction l generalizing st with
  | nil => exact h
  | cons e rest ih =>
    rw [List.foldl_cons]
    refine ih _ ?_
    rw [engineStep_warnings]
    exact List.mem_append_left _ h

lemma foldl_warn_of_err (rawData : ℕ → Option Channel) (l : List (ℕ × CalcDef))
    (st : EngineState) (e : ℕ × CalcDef) (he : e ∈ l) (s : ℕ)
    (hs : e.2.sourceChannels.find? (fun c => (rawData c).isNone) = some s) :
    (s, e.1) ∈ (l.foldl (engineStep rawData) st).warnings := by
  induction l generalizing st with
  | nil => cases he
  | cons x rest ih =>
    rw [List.foldl_cons]
    rcases List.mem_cons.mp he with rfl | hmem
    · refine foldl_warn_mono rawData rest _ _ ?_
      rw [engineStep_warnings]
      simp [computeSingleCalculatedChannel, hs]
    · exact ih _ hmem

lemma engine_calc0_none (rawData : ℕ → Option Channel)
    (h : rawData 0 = none ∨ rawData 1 = none) :
    (computeCalculatedChannels rawData).calculatedData 0 = none := by
  simp only [computeCalculatedChannels, calcChannelDefs, List.foldl_cons, List.foldl_nil]
  rcases h with h | h
  · simp [engineStep_calc_ne, engineStep_calc_eq, computeSingleCalculatedChannel, h]
  · cases hA : rawData 0 <;>
      simp [engineStep_calc_ne, engineStep_calc_eq, computeSingleCalculatedChannel, h, hA]

lemma engine_calc1_none (rawData : ℕ → Option Channel)
    (h : rawData 2 = none ∨ rawData 3 = none) :
    (computeCalculatedChannels rawData).calculatedData 1 = none := by
  simp only [computeCalculatedChannels, calcChannelDefs, List.foldl_cons, List.foldl_nil]
  rcases h with h | h
  · simp [engineStep_calc_ne, engineStep_calc_eq, computeSingleCalculatedChannel, h]
  · cases hA : rawData 2 <;>
      simp [engineStep_calc_ne, engineStep_calc_eq, computeSingleCalculatedChannel, h, hA]

lemma engine_calc2_none (rawData : ℕ → Option Channel)
    (h : rawData 4 = none ∨ rawData 5 = none) :
    (computeCalculatedChannels rawData).calculatedData 2 = none := by
  simp only [computeCalculatedChannels, calcChannelDefs, List.foldl_cons, List.foldl_nil]
  rcases h with h | h
  · simp [engineStep_calc_ne, engineStep_calc_eq, computeSingleCalculatedChannel, h]
  · cases hA : rawData 4 <;>
      simp [engineStep_calc_ne, engineStep_calc_eq, computeSingleCalculatedChannel, h, hA]

lemma engine_calc3_none (rawData : ℕ → Option Channel)
    (h : rawData 2 = none ∨ rawData 3 = none) :
    (computeCalculatedChannels rawData).calculatedData 3 = none := by
  simp only [computeCalculatedChannels, calcChannelDefs, List.foldl_cons, List.foldl_nil]
  rcases h with h | h
  · simp [engineStep_calc_ne, engineStep_calc_eq, computeSingleCalculatedChannel, h]
  · cases hA : rawData 2 <;>
      simp [engineStep_calc_ne, engineStep_calc_eq, computeSingleCalculatedChannel, h, hA]

lemma engine_calc4_none (rawData : ℕ → Option Channel)
    (h : rawData 4 = none ∨ rawData 5 = none) :
    (computeCalculatedChannels rawData).calculatedData 4 = none := by
  simp only [computeCalculatedChannels, calcChannelDefs, List.foldl_cons, List.foldl_nil]
  rcases h with h | h
  · simp [engineStep_calc_ne, engineStep_calc_eq, computeSingleCalculatedChannel, h]
  · cases hA : rawData 4 <;>
      simp [engineStep_calc_ne, engineStep_calc_eq, computeSingleCalculatedChannel, h, hA]

lemma engine_calc5_none (rawData : ℕ → Option Channel)
    (h : rawData 0 = none ∨ rawData 1 = none) :
    (computeCalculatedChannels rawData).calculatedData 5 = none := by
  simp only [computeCalculatedChannels, calcChannelDefs, List.foldl_cons, List.foldl_nil]
  rcases h with h | h
  · simp [engineStep_calc_ne, engineStep_calc_eq, computeSingleCalculatedChannel, h]
  · cases hA : rawData 0 <;>
      simp [engineStep_calc_ne, engineStep_calc_eq, computeSingleCalculatedChannel, h, hA]

lemma engine_calc6_none (rawData : ℕ → Option Channel)
    (h : rawData 6 = none ∨ rawData 7 = none) :
    (computeCalculatedChannels rawData).calculatedData 6 = none := by
  simp only [computeCalculatedChannels, calcChannelDefs, List.foldl_cons, List.foldl_nil]
  rcases h with h | h
  · simp [engineStep_calc_ne, engineStep_calc_eq, computeSingleCalculatedChannel, h]
  · cases hA : rawData 6 <;>
      simp [engineStep_calc_ne, engineStep_calc_eq, computeSingleCalculatedChannel, h, hA]

/-- C8: for every derived channel definition, the channel appears in the
output map exactly when all of its listed raw sources are present; when a
source is absent exactly that channel is skipped, a warning naming one of
its missing sources is recorded, and every other derived channel is still
attempted (its own presence governed only by its own sources); a stored
derived channel always carries the true formula values computed from the
raw channels (its derived dependency, whose sources coincide with its own,
is always available in time, so no placeholder values are ever emitted). -/
theorem c8_missing_source_skip (rawData : ℕ → Option Channel) :
    ∀ e ∈ calcChannelDefs,
      (((computeCalculatedChannels rawData).calculatedData e.1).isSome ↔
        ∀ s ∈ e.2.sourceChannels, (rawData s).isSome)
      ∧ ((∃ s ∈ e.2.sourceChannels, rawData s = none) →
          ∃ s ∈ e.2.sourceChannels,
            (s, e.1) ∈ (computeCalculatedChannels rawData).warnings)
      ∧ (∀ ch, (computeCalculatedChannels rawData).calculatedData e.1 = some ch →
          ch.values = expectedCalcValues rawData e.1) := by
  have warn : ∀ (e : ℕ × CalcDef), e ∈ calcChannelDefs → ∀ s : ℕ,
      e.2.sourceChannels.find? (fun c => (rawData c).isNone) = some s →
      (s, e.1) ∈ (computeCalculatedChannels rawData).warnings := by
    intro e he s hs
    exact foldl_warn_of_err rawData calcChannelDefs _ e he s hs
  intro e he
  have hmem := he
  simp only [calcChannelDefs, List.mem_cons, List.not_mem_nil, or_false] at hmem
  rcases hmem with rfl | rfl | rfl | rfl | rfl | rfl | rfl
  case _ =>
    refine ⟨?_, ?_, ?_⟩
    · cases hA : rawData 0 with
      | none => simp [engine_calc0_none rawData (Or.inl hA), hA]
      | some ca =>
        cases hB : rawData 1 with
        | none => simp [engine_calc0_none rawData (Or.inr hB), hA, hB]
        | some cb => simp [engine_calc0_some rawData ca cb hA hB, hA, hB]
    · rintro ⟨s, hs, hnone⟩
      cases hA : rawData 0 with
      | none => exact ⟨0, by norm_num, warn _ he 0 (by simp [hA])⟩
      | some ca =>
        have hb : rawData 1 = none := by
          simp only [List.mem_cons, List.not_mem_nil, or_false] at hs
          rcases hs with rfl | rfl
          · rw [hA] at hnone; cases hnone
          · exact hnone
        exact ⟨1, by norm_num, warn _ he 1 (by simp [hA, hb])⟩
    · intro ch hch
      cases hA : rawData 0 with
      | none => rw [engine_calc0_none rawData (Or.inl hA)] at hch; cases hch
      | some ca =>
        cases hB : rawData 1 with
        | none => rw [engine_calc0_none rawData (Or.inr hB)] at hch; cases hch
        | some cb =>
          rw [engine_calc0_some rawData ca cb hA hB, Option.some.injEq] at hch
          rw [← hch]
          simp [expectedCalcValues, pointsOfRaw, hA]
  case _ =>
    refine ⟨?_, ?_, ?_⟩
    · cases hA : rawData 2 with
      | none => simp [engine_calc1_none rawData (Or.inl hA), hA]
      | some ca =>
        cases hB : rawData 3 with
        | none => simp [engine_calc1_none rawData (Or.inr hB), hA, hB]
        | some cb => simp [engine_calc1_some rawData ca cb hA hB, hA, hB]
    · rintro ⟨s, hs, hnone⟩
      cases hA : rawData 2 with
      | none => exact ⟨2, by norm_num, warn _ he 2 (by simp [hA])⟩
      | some ca =>
        have hb : rawData 3 = none := by
          simp only [List.mem_cons, List.not_mem_nil, or_false] at hs
          rcases hs with rfl | rfl
          · rw [hA] at hnone; cases hnone
          · exact hnone
        exact ⟨3, by norm_num, warn _ he 3 (by simp [hA, hb])⟩
    · intro ch hch
      cases hA : rawData 2 with
      | none => rw [engine_calc1_none rawData (Or.inl hA)] at hch; cases hch
      | some ca =>
        cases hB : rawData 3 with
        | none => rw [engine_calc1_none rawData (Or.inr hB)] at hch; cases hch
        | some cb =>
          rw [engine_calc1_some rawData ca cb hA hB, Option.some.injEq] at hch
          rw [← hch]
          simp [expectedCalcValues, pointsOfRaw, hA]
  case _ =>
    refine ⟨?_, ?_, ?_⟩
    · cases hA : rawData 4 with
      | none => simp [engine_calc2_none rawData (Or.inl hA), hA]
      | some ca =>
        cases hB : rawData 5 with
        | none => simp [engine_calc2_none rawData (Or.inr hB), hA, hB]
        | some cb => simp [engine_calc2_some rawData ca cb hA hB, hA, hB]
    · rintro ⟨s, hs, hnone⟩
      cases hA : rawData 4 with
      | none => exact ⟨4, by norm_num, warn _ he 4 (by simp [hA])⟩
      | some ca =>
        have hb : rawData 5 = none := by
          simp only [List.mem_cons, List.not_mem_nil, or_false] at hs
          rcases hs with rfl | rfl
          · rw [hA] at hnone; cases hnone
          · exact hnone
        exact ⟨5, by norm_num, warn _ he 5 (by simp [hA, hb])⟩
    · intro ch hch
      cases hA : rawData 4 with
      | none => rw [engine_calc2_none rawData (Or.inl hA)] at hch; cases hch
      | some ca =>
        cases hB : rawData 5 with
        | none => rw [engine_calc2_none rawData (Or.inr hB)] at hch; cases hch
        | some cb =>
          rw [engine_calc2_some rawData ca cb hA hB, Option.some.injEq] at hch
          rw [← hch]
          simp [expectedCalcValues, pointsOfRaw, hA]
  case _ =>
    refine ⟨?_, ?_, ?_⟩
    · cases hA : rawData 2 with
      | none => simp [engine_calc3_none rawData (Or.inl hA), hA]
      | some ca =>
        cases hB : rawData 3 with
        | none => simp [engine_calc3_none rawData (Or.inr hB), hA, hB]
        | some cb => simp [engine_calc3_some rawData ca cb hA hB, hA, hB]
    · rintro ⟨s, hs, hnone⟩
      cases hA : rawData 2 with
      | none => exact ⟨2, by norm_num, warn _ he 2 (by simp [hA])⟩
      | some ca =>
        have hb : rawData 3 = none := by
          simp only [List.mem_cons, List.not_mem_nil, or_false] at hs
          rcases hs with rfl | rfl
          · rw [hA] at hnone; cases hnone
          · exact hnone
        exact ⟨3, by norm_num, warn _ he 3 (by simp [hA, hb])⟩
    · intro ch hch
      cases hA : rawData 2 with
      | none => rw [engine_calc3_none rawData (Or.inl hA)] at hch; cases hch
      | some ca =>
        cases hB : rawData 3 with
        | none => rw [engine_calc3_none rawData (Or.inr hB)] at hch; cases hch
        | some cb =>
          rw [engine_calc3_some rawData ca cb hA hB, Option.some.injEq] at hch
          rw [← hch]
          simp [expectedCalcValues, pointsOfRaw, rawValues, hA, hB]
  case _ =>
    refine ⟨?_, ?_, ?_⟩
    · cases hA : rawData 4 with
      | none => simp [engine_calc4_none rawData (Or.inl hA), hA]
      | some ca =>
        cases hB : rawData 5 with
        | none => simp [engine_calc4_none rawData (Or.inr hB), hA, hB]
        | some cb => simp [engine_calc4_some rawData ca cb hA hB, hA, hB]
    · rintro ⟨s, hs, hnone⟩
      cases hA : rawData 4 with
      | none => exact ⟨4, by norm_num, warn _ he 4 (by simp [hA])⟩
      | some ca =>
        have hb : rawData 5 = none := by
          simp only [List.mem_cons, List.not_mem_nil, or_false] at hs
          rcases hs with rfl | rfl
          · rw [hA] at hnone; cases hnone
          · exact hnone
        exact ⟨5, by norm_num, warn _ he 5 (by simp [hA, hb])⟩
    · intro ch hch
      cases hA : rawData 4 with
      | none => rw [engine_calc4_none rawData (Or.inl hA)] at hch; cases hch
      | some ca =>
        cases hB : rawData 5 with
        | none => rw [engine_calc4_none rawData (Or.inr hB)] at hch; cases hch
        | some cb =>
          rw [engine_calc4_some rawData ca cb hA hB, Option.some.injEq] at hch
          rw [← hch]
          simp [expectedCalcValues, pointsOfRaw, rawValues, hA, hB]
  case _ =>
    refine ⟨?_, ?_, ?_⟩
    · cases hA : rawData 0 with
      | none => simp [engine_calc5_none rawData (Or.inl hA), hA]
      | some ca =>
        cases hB : rawData 1 with
        | none => simp [engine_calc5_none rawData (Or.inr hB), hA, hB]
        | some cb => simp [engine_calc5_some rawData ca cb hA hB, hA, hB]
    · rintro ⟨s, hs, hnone⟩
      cases hA : rawData 0 with
      | none => exact ⟨0, by norm_num, warn _ he 0 (by simp [hA])⟩
      | some ca =>
        have hb : rawData 1 = none := by
          simp only [List.mem_cons, List.not_mem_nil, or_false] at hs
          rcases hs with rfl | rfl
          · rw [hA] at hnone; cases hnone
          · exact hnone
        exact ⟨1, by norm_num, warn _ he 1 (by simp [hA, hb])⟩
    · intro ch hch
      cases hA : rawData 0 with
      | none => rw [engine_calc5_none rawData (Or.inl hA)] at hch; cases hch
      | some ca =>
        cases hB : rawData 1 with
        | none => rw [engine_calc5_none rawData (Or.inr hB)] at hch; cases hch
        | some cb =>
          rw [engine_calc5_some rawData ca cb hA hB, Option.some.injEq] at hch
          rw [← hch]
          simp [expectedCalcValues, pointsOfRaw, rawValues, hA, hB]
  case _ =>
    refine ⟨?_, ?_, ?_⟩
    · cases hA : rawData 6 with
      | none => simp [engine_calc6_none rawData (Or.inl hA), hA]
      | some ca =>
        cases hB : rawData 7 with
        | none => simp [engine_calc6_none rawData (Or.inr hB), hA, hB]
        | some cb => simp [engine_calc6_some rawData ca cb hA hB, hA, hB]
    · rintro ⟨s, hs, hnone⟩
      cases hA : rawData 6 with
      | none => exact ⟨6, by norm_num, warn _ he 6 (by simp [hA])⟩
      | some ca =>
        have hb : rawData 7 = none := by
          simp only [List.mem_cons, List.not_mem_nil, or_false] at hs
          rcases hs with rfl | rfl
          · rw [hA] at hnone; cases hnone
          · exact hnone
        exact ⟨7, by norm_num, warn _ he 7 (by simp [hA, hb])⟩
    · intro ch hch
      cases hA : rawData 6 with
      | none => rw [engine_calc6_none rawData (Or.inl hA)] at hch; cases hch
      | some ca =>
        cases hB : rawData 7 with
        | none => rw [engine_calc6_none rawData (Or.inr hB)] at hch; cases hch
        | some cb =>
          rw [engine_calc6_some rawData ca cb hA hB, Option.some.injEq] at hch
          rw [← hch]
          simp [expectedCalcValues, pointsOfRaw, hA]

/-- Witness for C8: the conclusion instantiated at the I_DC_GR1 definition
on a raw map whose channel 2 is absent. -/
theorem c8_missing_source_skip_witness :
    (((computeCalculatedChannels exMissingRaw).calculatedData 3).isSome ↔
      ∀ s ∈ [2, 3], (exMissingRaw s).isSome)
    ∧ ((∃ s ∈ [2, 3], exMissingRaw s = none) →
        ∃ s ∈ [2, 3], (s, 3) ∈ (computeCalculatedChannels exMissingRaw).warnings)
    ∧ (∀ ch, (computeCalculatedChannels exMissingRaw).calculatedData 3 = some ch →
        ch.values = expectedCalcValues exMissingRaw 3) :=
  c8_missing_source_skip exMissingRaw (3, ⟨"I_DC_GR1*", "A", [2, 3]⟩)
    (by simp [calcChannelDefs])

lemma getQ_range_map (f : ℕ → ℚ) (n i : ℕ) (h : i < n) :
    getQ ((List.range n).map f) i = f i := by
  rw [getQ, List.getD_eq_getElem _ _ (by simpa using h)]
  simp

/-- C6: derived channel D0 (UL3L1) is stored whenever raw channels 0 and 1
are present, with the point count of its primary source and with
values[i] = -raw0[i] - raw1[i] at every index below that count. -/
theorem c6_derived_d0 (rawData : ℕ → Option Channel) (ca cb : Channel)
    (ha : rawData 0 = some ca) (hb : rawData 1 = some cb) :
    ∃ ch, (computeCalculatedChannels rawData).calculatedData 0 = some ch
      ∧ ch.points = ca.points
      ∧ ch.values.length = ca.points
      ∧ ∀ i < ca.points, getQ ch.values i = -(getQ ca.values i) - getQ cb.values i := by
  refine ⟨_, engine_calc0_some rawData ca cb ha hb, rfl,
    by simp [calculateDifferential], ?_⟩
  intro i hi
  rw [calculateDifferential, getQ_range_map _ _ _ hi]
  simp [rawValues, ha, hb]
  ring

/-- Witness for C6: on raw[0] = [1,2,3] and raw[1] = [0,1,1] the derived D0
values are -1, -3, -4. -/
theorem c6_derived_d0_witness :
    ∃ ch, (computeCalculatedChannels c6raw).calculatedData 0 = some ch
      ∧ ch.points = 3 ∧ getQ ch.values 0 = -1 ∧ getQ ch.values 1 = -3
      ∧ getQ ch.values 2 = -4 := by
  obtain ⟨ch, hch, hpts, hlen, hv⟩ := c6_derived_d0 c6raw exD0ChA exD0ChB rfl rfl
  refine ⟨ch, hch, by rw [hpts]; rfl, ?_, ?_, ?_⟩
  · rw [hv 0 (by norm_num [exD0ChA])]; norm_num [getQ, exD0ChA, exD0ChB]
  · rw [hv 1 (by norm_num [exD0ChA])]; norm_num [getQ, exD0ChA, exD0ChB]
  · rw [hv 2 (by norm_num [exD0ChA])]; norm_num [getQ, exD0ChA, exD0ChB]

/-- C10: every value of the derived channels D3 (I_DC_GR1), D4 (I_DC_GR2)
and D5 (U_DC) is non-negative, each output element being a positive constant
multiplied into (or dividing) a sum of three absolute values. -/
theorem c10_dc_nonneg (rawData : ℕ → Option Channel) (k : ℕ)
    (hk : k = 3 ∨ k = 4 ∨ k = 5) (ch : Channel)
    (hch : (computeCalculatedChannels rawData).calculatedData k = some ch) :
    ∀ x ∈ ch.values, 0 ≤ x := by
  have habs : ∀ a b c : ℚ, 0 ≤ TRAFO_STROM_MULTIPLIER * (|a| + |b| + |c|) := by
    intro a b c
    rw [TRAFO_STROM_MULTIPLIER]
    positivity
  have habs2 : ∀ a b c : ℚ, 0 ≤ (|a| + |b| + |c|) / TRAFO_STROM_MULTIPLIER := by
    intro a b c
    rw [TRAFO_STROM_MULTIPLIER]
    positivity
  rcases hk with rfl | rfl | rfl
  · cases hA : rawData 2 with
    | none => rw [engine_calc3_none rawData (Or.inl hA)] at hch; cases hch
    | some ca =>
      cases hB : rawData 3 with
      | none => rw [engine_calc3_none rawData (Or.inr hB)] at hch; cases hch
      | some cb =>
        rw [engine_calc3_some rawData ca cb hA hB, Option.some.injEq] at hch
        rw [← hch]
        intro x hx
        simp only [List.mem_map] at hx
        obtain ⟨i, _, rfl⟩ := hx
        exact habs _ _ _
  · cases hA : rawData 4 with
    | none => rw [engine_calc4_none rawData (Or.inl hA)] at hch; cases hch
    | some ca =>
      cases hB : rawData 5 with
      | none => rw [engine_calc4_none rawData (Or.inr hB)] at hch; cases hch
      | some cb =>
        rw [engine_calc4_some rawData ca cb hA hB, Option.some.injEq] at hch
        rw [← hch]
        intro x hx
        simp only [List.mem_map] at hx
        obtain ⟨i, _, rfl⟩ := hx
        exact habs _ _ _
  · cases hA : rawData 0 with
    | none => rw [engine_calc5_none rawData (Or.inl hA)] at hch; cases hch
    | some ca =>
      cases hB : rawData 1 with
      | none => rw [engine_calc5_none rawData (Or.inr hB)] at hch; cases hch
      | some cb =>
        rw [engine_calc5_some rawData ca cb hA hB, Option.some.injEq] at hch
        rw [← hch]
        intro x hx
        simp only [List.mem_map] at hx
        obtain ⟨i, _, rfl⟩ := hx
        exact habs2 _ _ _

/-- Witness for C10: the first D3 value on a concrete raw map is
non-negative. -/
theorem c10_dc_nonneg_witness :
    0 ≤ getQ (((computeCalculatedChannels c6raw).calculatedData 3).getD
      default).values 0 := by
  have hch : (computeCalculatedChannels c6raw).calculatedData 3 =
      some (((computeCalculatedChannels c6raw).calculatedData 3).getD default) := by
    rw [engine_calc3_some c6raw exUnitCh exUnitCh rfl rfl]
    rfl
  have hmem : getQ (((computeCalculatedChannels c6raw).calculatedData 3).getD
      default).values 0 ∈
      (((computeCalculatedChannels c6raw).calculatedData 3).getD default).values := by
    rw [engine_calc3_some c6raw exUnitCh exUnitCh rfl rfl]
    simp [getQ, exUnitCh, List.range_succ]
  exact c10_dc_nonneg c6raw 3 (Or.inl rfl) _ hch _ hmem

lemma rangeMap_getQ_eq_slice (l : List ℚ) (i cnt : ℕ) (h : i + cnt ≤ l.length) :
    (List.range cnt).map (fun j => getQ l (i + j)) = (l.drop i).take cnt := by
  apply List.ext_getElem
  · simp
    omega
  · intro n h1 h2
    simp only [List.getElem_map, List.getElem_range, List.getElem_take, List.getElem_drop]
    rw [getQ, List.getD_eq_getElem]

lemma flatMapCongr {α β : Type} (l : List α) (f g : α → List β)
    (h : ∀ a ∈ l, f a = g a) : l.flatMap f = l.flatMap g := by
  induction l with
  | nil => rfl
  | cons x rest ih =>
    rw [List.flatMap_cons, List.flatMap_cons, h x (by simp), ih (fun a ha => h a (by simp [ha]))]

lemma bucketStarts_bounds (s e step i : ℕ) (hstep : 0 < step)
    (hi : i ∈ bucketStarts s e step) : s ≤ i ∧ i < e := by
  rw [bucketStarts, if_neg (by omega)] at hi
  rw [List.mem_range'] at hi
  obtain ⟨k, hk, rfl⟩ := hi
  have h1 : step * (k + 1) ≤ e - s + step - 1 := by
    calc step * (k + 1) ≤ step * ((e - s + step - 1) / step) :=
          Nat.mul_le_mul_left step hk
      _ ≤ e - s + step - 1 := Nat.mul_div_le _ step
  have h2 : step * k + step = step * (k + 1) := by ring
  omega

lemma findTimeIndex_le (t : List ℚ) (x : ℚ) : findTimeIndex t x ≤ t.length - 1 := by
  rw [findTimeIndex]
  omega

lemma emitBucket_spec (ch : Channel) (endIdx step : ℕ) (timeStep : ℚ) (i : ℕ)
    (hstep : 0 < step) (hi : i < endIdx) (hbound : endIdx ≤ ch.values.length) :
    emitBucket ch endIdx step timeStep i =
      (specBucketTime ch endIdx step timeStep i, specBucketVals ch endIdx step i) := by
  have hcnt : 0 < min step (endIdx - i) := by omega
  have hle : i + min step (endIdx - i) ≤ ch.values.length := by omega
  have hslice : (List.range (min step (endIdx - i))).map (fun j => getQ ch.values (i + j)) =
      bucketSlice ch endIdx step i := by
    rw [bucketSlice]
    exact rangeMap_getQ_eq_slice ch.values i _ hle
  obtain ⟨k, hk⟩ : ∃ k, min step (endIdx - i) = k + 1 := ⟨_, (Nat.succ_pred_eq_of_pos hcnt).symm⟩
  have hcons : bucketSlice ch endIdx step i =
      getQ ch.values i :: (List.range k).map (fun j => getQ ch.values (i + 1 + j)) := by
    rw [← hslice, hk, List.range_succ_eq_map]
    simp [Function.comp]
    exact fun j _ => by ring_nf
  have hmn : (bucketSlice ch endIdx step i).foldl min (getQ ch.values i) =
      bucketMin ch endIdx step i := by
    rw [bucketMin, hcons, List.foldl_cons, min_self]
    rfl
  have hmx : (bucketSlice ch endIdx step i).foldl max (getQ ch.values i) =
      bucketMax ch endIdx step i := by
    rw [bucketMax, hcons, List.foldl_cons, max_self]
    rfl
  have hsum : (bucketSlice ch endIdx step i).foldl (· + ·) 0 =
      (bucketSlice ch endIdx step i).sum := List.sum_eq_foldl.symm
  have havg : (bucketSlice ch endIdx step i).sum / ((min step (endIdx - i) : ℕ) : ℚ) =
      bucketAvg ch endIdx step i := by
    rw [bucketAvg]
    congr 1
    rw [← hslice]
    simp
  simp only [emitBucket, hslice, hmn, hmx, hsum, havg, if_pos hcnt]
  rw [specBucketTime, specBucketVals]
  split_ifs <;> rfl

/-- C3 (amended): whenever the window holds more than maxPoints points, the
resampled output is exactly the concatenation over the bucket start indices
of the per-bucket emission: a bucket whose values satisfy
|max - min| > 0.1 * |avg| contributes exactly the three points (t, min),
(t + dt, max), (t + 0.5 * dt, avg) built from the first timestamp t of the
bucket and dt = (samplingIntervalNs * downsamplingFactor) / 1e9, with min,
max and avg the minimum, maximum and mean of the bucket slice; every other
bucket contributes the single point (t, avg).  The step factor never enters
the emitted timestamps. -/
theorem c3_resample_buckets_amended (SI : ℚ) (ch : Channel)
    (startTime endTime : ℚ) (mp sI eI step : ℕ) (dt : ℚ)
    (hsI : sI = findTimeIndex ch.time startTime)
    (heI : eI = findTimeIndex ch.time endTime)
    (hstep : step = if mp = 0 then eI - sI else (eI - sI) / mp)
    (hdt : dt = SI * (ch.downsampling : ℚ) / 1000000000)
    (hwf : ch.time.length = ch.values.length) (hds : ch.downsampling ≠ 0)
    (htotal : mp < eI - sI) :
    getResampledData SI (some ch) startTime endTime mp =
      ((bucketStarts sI eI step).flatMap (specBucketTime ch eI step dt),
       (bucketStarts sI eI step).flatMap (specBucketVals ch eI step)) := by
  subst hsI heI hstep hdt
  have hts : getChannelTimeStep SI (some ch) =
      SI * (ch.downsampling : ℚ) / 1000000000 := by
    rw [getChannelTimeStep, if_neg hds]
  have hstep0 : 0 < (if mp = 0 then
      findTimeIndex ch.time endTime - findTimeIndex ch.time startTime
    else (findTimeIndex ch.time endTime - findTimeIndex ch.time startTime) / mp) := by
    by_cases hmp : mp = 0
    · rw [if_pos hmp]
      omega
    · rw [if_neg hmp]
      exact Nat.div_pos (le_of_lt htotal) (Nat.pos_of_ne_zero hmp)
  have hbound : findTimeIndex ch.time endTime ≤ ch.values.length := by
    have := findTimeIndex_le ch.time endTime
    omega
  simp only [getResampledData]
  rw [if_neg (by omega), hts]
  refine Prod.ext ?_ ?_
  · refine flatMapCongr _ _ _ ?_
    intro i hi
    obtain ⟨hs, hlt⟩ := bucketStarts_bounds _ _ _ i hstep0 hi
    rw [emitBucket_spec ch _ _ _ i hstep0 hlt hbound]
  · refine flatMapCongr _ _ _ ?_
    intro i hi
    obtain ⟨hs, hlt⟩ := bucketStarts_bounds _ _ _ i hstep0 hi
    rw [emitBucket_spec ch _ _ _ i hstep0 hlt hbound]

lemma findTimeIndex_exSpike_lo : findTimeIndex exSpikeCh.time 0 = 0 := by
  have h1 : btLoop [0, 1, 2, 3, 4] 0 0 4 = 0 := by
    rw [btLoop]
    norm_num [getQ, Int.toNat]
    rw [btLoop]
    norm_num [getQ, Int.toNat]
    rw [btLoop]
    norm_num
  norm_num [findTimeIndex, exSpikeCh, h1, Int.toNat]

lemma findTimeIndex_exSpike_hi : findTimeIndex exSpikeCh.time 100 = 4 := by
  have h1 : btLoop [0, 1, 2, 3, 4] 100 0 4 = 5 := by
    rw [btLoop]
    norm_num [getQ, Int.toNat]
    rw [btLoop]
    norm_num [getQ, Int.toNat]
    rw [btLoop]
    norm_num [getQ, Int.toNat]
    rw [btLoop]
    norm_num
  norm_num [findTimeIndex, exSpikeCh, h1, Int.toNat]

/-- Witness for C3 (amended): the spike channel with window [0, 4), budget
2, step 2 and dt = 1 resamples to the per-bucket emission. -/
theorem c3_resample_buckets_amended_witness :
    getResampledData 1000000000 (some exSpikeCh) 0 100 2 =
      ((bucketStarts 0 4 2).flatMap (specBucketTime exSpikeCh 4 2 1),
       (bucketStarts 0 4 2).flatMap (specBucketVals exSpikeCh 4 2)) := by
  have h := c3_resample_buckets_amended 1000000000 exSpikeCh 0 100 2 0 4 2 1
    findTimeIndex_exSpike_lo.symm findTimeIndex_exSpike_hi.symm
    (by norm_num) (by norm_num [exSpikeCh]) rfl (by norm_num [exSpikeCh])
    (by norm_num)
  exact h

